import Mathlib

/-!
Verification of the dual-task ESP32-CAM HTTP/MJPEG firmware
(`src/OV5640/2/sketch/sketch.ino`) against its natural-language
specification.  The definitions below are a shallow embedding of the
sketch's request handlers: Arduino `String` operations are modelled over
`List Char`, the camera sensor (Frame Source) is modelled as an optional
oracle mapping a setter name and argument to the setter's result code,
and the handlers become pure functions from (oracle, state, header) to
(response, state, setter invocations).
-/

/-- The `CameraSettings` record (sketch lines 501-520): the
Control-Surface State.  All fields are C `int`s in the source. -/
structure CameraSettings where
  brightness : Int
  contrast : Int
  saturation : Int
  wb_mode : Int
  whitebal : Int
  awb_gain : Int
  exposure_ctrl : Int
  aec2 : Int
  ae_level : Int
  aec_value : Int
  raw_gma : Int
  lenc : Int
  dcw : Int
  gainceiling : Int
  special_effect : Int
  colorbar : Int
  quality : Int
  framesize : Int
deriving DecidableEq

/-- The defaults stored by `startCamera` (sketch lines 574-593).  The
`framesize` default is `config.frame_size`, which depends on whether
PSRAM was found, so it is a parameter here. -/
def initialSettings (framesizeDefault : Int) : CameraSettings :=
  { brightness := 0, contrast := 0, saturation := 0, wb_mode := 0,
    whitebal := 1, awb_gain := 1, exposure_ctrl := 1, aec2 := 1,
    ae_level := 0, aec_value := 1000, raw_gma := 1, lenc := 1, dcw := 0,
    gainceiling := 128, special_effect := 0, colorbar := 0,
    quality := 12, framesize := framesizeDefault }

/-- One HTTP response as emitted by a handler: status line, content type,
the `Content-Length` value actually printed (`none` when the handler
emits no such header, as in the 500 branch), and the body bytes. -/
structure HttpResponse where
  status : String
  contentType : String
  contentLength : Option Nat
  body : String
deriving DecidableEq

/-- `isPref pat l` holds when `pat` is a literal prefix of `l`. -/
def isPref : List Char → List Char → Bool
  | [], _ => true
  | _ :: _, [] => false
  | p :: ps, h :: hs => if p = h then isPref ps hs else false

/-- Substring containment, the model of Arduino
`String.indexOf(sub) >= 0`. -/
def hasSub (hay pat : List Char) : Bool :=
  match hay with
  | [] => pat.isEmpty
  | c :: t => isPref pat (c :: t) || hasSub t pat

/-- String-level wrapper for `hasSub`. -/
def strHas (h pat : String) : Bool := hasSub h.data pat.data

/-- Number of positions of `hay` at which `pat` occurs. -/
def countSub (hay pat : List Char) : Nat :=
  match hay with
  | [] => 0
  | c :: t => (if isPref pat (c :: t) then 1 else 0) + countSub t pat

/-- The suffix of the list strictly after the first occurrence of `c`,
or `none` when `c` does not occur. -/
def afterChar (c : Char) : List Char → Option (List Char)
  | [] => none
  | x :: xs => if x = c then some xs else (afterChar c xs)

/-- The prefix of the list strictly before the first occurrence of `c`,
or `none` when `c` does not occur. -/
def takeBeforeCharOpt (c : Char) : List Char → Option (List Char)
  | [] => none
  | x :: xs =>
    if x = c then some [] else (takeBeforeCharOpt c xs).map (x :: ·)

/-- The prefix of the list strictly before the first occurrence of the
substring `pat`, or `none` when `pat` does not occur. -/
def takeBeforeSubOpt (pat : List Char) : List Char → Option (List Char)
  | [] => if pat.isEmpty then some [] else none
  | x :: xs =>
    if isPref pat (x :: xs) then some []
    else (takeBeforeSubOpt pat xs).map (x :: ·)

/-- Decimal digit value of a character. -/
def digitVal (c : Char) : Int := (c.toNat : Int) - 48

/-- Is the character an ASCII decimal digit? -/
def isDigitChar (c : Char) : Bool := 48 ≤ c.toNat && c.toNat ≤ 57

/-- Whitespace in the sense of C `isspace`, used by `atol`. -/
def isSpaceChar (c : Char) : Bool :=
  c = ' ' || c = '\t' || c = '\n' || c = '\r' || c = '\x0B' || c = '\x0C'

/-- Accumulating decimal parser: consumes leading digits, stops at the
first non-digit. -/
def atoiDigits : List Char → Int → Int
  | [], acc => acc
  | c :: cs, acc =>
    if isDigitChar c then atoiDigits cs (acc * 10 + digitVal c) else acc

/-- Model of Arduino `String.toInt()` (C `atol`): skip whitespace, an
optional sign, then digits; anything else yields the value so far
(`0` when no digits at all — the parser never fails). -/
def atoiSigned : List Char → Int
  | [] => 0
  | c :: rest =>
    if c = '-' then - atoiDigits rest 0
    else if c = '+' then atoiDigits rest 0
    else atoiDigits (c :: rest) 0

def atoi (cs : List Char) : Int := atoiSigned (cs.dropWhile isSpaceChar)

/-- The decimal digit character for `n % 10`-style values. -/
def digitChar : Nat → Char
  | 0 => '0' | 1 => '1' | 2 => '2' | 3 => '3' | 4 => '4'
  | 5 => '5' | 6 => '6' | 7 => '7' | 8 => '8' | _ => '9'

/-- Fuel-driven decimal rendering of a natural number (most significant
digit first), used to build concrete query strings for the theorems. -/
def natDecAux : Nat → Nat → List Char → List Char
  | 0, _, acc => acc
  | fuel + 1, n, acc =>
    if n < 10 then digitChar n :: acc
    else natDecAux fuel (n / 10) (digitChar (n % 10) :: acc)

/-- Decimal digits of a natural number. -/
def natDec (n : Nat) : List Char := natDecAux (n + 1) n []

/-- Decimal rendering of an integer (canonical `value` text in a
`GET /camera?name=value` request). -/
def intDec (v : Int) : List Char :=
  if v < 0 then '-' :: natDec v.natAbs else natDec v.toNat

/-- The query-extraction steps of `handleCameraSettings` (sketch lines
970-977): `param = header.substring(header.indexOf("?") + 1)`, then
`param = param.substring(0, param.indexOf(" HTTP"))`, then the name is
everything before the first `=` and the value is `toInt` of everything
after it.  Arduino `indexOf` returns `-1` on absence, which the
`substring` calls turn into "the whole string" (via `+1` resp. the
unsigned clamp), hence the `getD` fallbacks. -/
def parseParam (header : String) : String × Int :=
  let p1 := (afterChar '?' header.data).getD header.data
  let p2 := (takeBeforeSubOpt " HTTP".data p1).getD p1
  let name := (takeBeforeCharOpt '=' p2).getD p2
  let valuePart := (afterChar '=' p2).getD p2
  (String.mk name, atoi valuePart)

/-- The flat JSON document built by the `/camera/status` branch (sketch
lines 936-955), reproduced byte for byte: note that after the first
`colorbar` entry (line 952, no trailing comma) the code appends
`special_effect` and `colorbar` a second time (lines 953-954), and that
`quality` and `framesize` are never serialized. -/
def statusJson (c : CameraSettings) : String :=
  "\x7b" ++
  "\"brightness\":" ++ toString c.brightness ++ "," ++
  "\"contrast\":" ++ toString c.contrast ++ "," ++
  "\"saturation\":" ++ toString c.saturation ++ "," ++
  "\"wb_mode\":" ++ toString c.wb_mode ++ "," ++
  "\"whitebal\":" ++ toString c.whitebal ++ "," ++
  "\"awb_gain\":" ++ toString c.awb_gain ++ "," ++
  "\"exposure_ctrl\":" ++ toString c.exposure_ctrl ++ "," ++
  "\"aec2\":" ++ toString c.aec2 ++ "," ++
  "\"ae_level\":" ++ toString c.ae_level ++ "," ++
  "\"aec_value\":" ++ toString c.aec_value ++ "," ++
  "\"raw_gma\":" ++ toString c.raw_gma ++ "," ++
  "\"lenc\":" ++ toString c.lenc ++ "," ++
  "\"dcw\":" ++ toString c.dcw ++ "," ++
  "\"gainceiling\":" ++ toString c.gainceiling ++ "," ++
  "\"special_effect\":" ++ toString c.special_effect ++ "," ++
  "\"colorbar\":" ++ toString c.colorbar ++
  "\"special_effect\":" ++ toString c.special_effect ++ "," ++
  "\"colorbar\":" ++ toString c.colorbar ++
  "\x7d"

/-- One branch of the validation chain of the update branch: the
parameter name, the inclusive bounds checked on the value, and the field
assignment performed when the setter reports success. -/
structure SettingRow where
  key : String
  lo : Int
  hi : Int
  commit : CameraSettings → Int → CameraSettings

/-- The validation/commit chain of the update branch (sketch lines
980-1056), one row per `else if` branch in source order, including the
duplicated (unreachable, since its condition equals that of the earlier
row) `special_effect` branch at line 1040.  Every branch of the source
checks `value >= lo && value <= hi` for its bounds. -/
def settingsTable : List SettingRow :=
  [⟨"brightness", -2, 2, fun st v => { st with brightness := v }⟩,
   ⟨"contrast", -2, 2, fun st v => { st with contrast := v }⟩,
   ⟨"wb_mode", 0, 4, fun st v => { st with wb_mode := v }⟩,
   ⟨"exposure_ctrl", 0, 1, fun st v => { st with exposure_ctrl := v }⟩,
   ⟨"ae_level", -2, 2, fun st v => { st with ae_level := v }⟩,
   ⟨"whitebal", 0, 1, fun st v => { st with whitebal := v }⟩,
   ⟨"special_effect", 0, 6, fun st v => { st with special_effect := v }⟩,
   ⟨"saturation", -2, 2, fun st v => { st with saturation := v }⟩,
   ⟨"awb_gain", 0, 1, fun st v => { st with awb_gain := v }⟩,
   ⟨"aec2", 0, 1, fun st v => { st with aec2 := v }⟩,
   ⟨"aec_value", 0, 1200, fun st v => { st with aec_value := v }⟩,
   ⟨"raw_gma", 0, 1, fun st v => { st with raw_gma := v }⟩,
   ⟨"lenc", 0, 1, fun st v => { st with lenc := v }⟩,
   ⟨"dcw", 0, 1, fun st v => { st with dcw := v }⟩,
   ⟨"gainceiling", 2, 128, fun st v => { st with gainceiling := v }⟩,
   ⟨"special_effect", 0, 6, fun st v => { st with special_effect := v }⟩,
   ⟨"colorbar", 0, 1, fun st v => { st with colorbar := v }⟩,
   ⟨"framesize", 0, 13, fun st v => { st with framesize := v }⟩,
   ⟨"quality", 0, 63, fun st v => { st with quality := v }⟩]

/-- Does one branch of the chain fire for this name and value? -/
def matchRow (name : String) (v : Int) (row : SettingRow) : Bool :=
  decide (name = row.key) && decide (row.lo ≤ v) && decide (v ≤ row.hi)

/-- The validation/commit chain itself: the first branch whose condition
holds calls the corresponding Frame-Source setter (the oracle `s`
applied to the branch's name) and commits the value into the
Control-Surface State exactly when the setter returned `0`; when no
branch fires, `result` keeps its initial `-1` and nothing is called or
written.  First-match lookup is exactly the `else if` chain because the
only repeated name (`special_effect`) repeats with identical bounds.
The third component records the setter invocations made. -/
def applySetting (s : String → Int → Int) (st : CameraSettings)
    (name : String) (value : Int) :
    Int × CameraSettings × List (String × Int) :=
  match settingsTable.find? (matchRow name value) with
  | none => (-1, st, [])
  | some row =>
    let r := s row.key value
    (r, if r = 0 then row.commit st value else st, [(row.key, value)])

/-- The fixed validation table of the update branch, as a predicate:
`tableValid name v` holds exactly when some branch of the chain fires
for `(name, v)`. -/
def tableValid (name : String) (v : Int) : Prop :=
  ∃ row ∈ settingsTable, name = row.key ∧ row.lo ≤ v ∧ v ≤ row.hi

instance (name : String) (v : Int) : Decidable (tableValid name v) := by
  unfold tableValid; infer_instance

/-- `handleCameraSettings` (sketch lines 919-1077).  The sensor argument
models `esp_camera_sensor_get()`: `none` is the NULL case (500 response,
lines 921-928).  Otherwise the `/camera/status` branch (lines 935-967)
serializes `statusJson` without touching the sensor, and the update
branch (lines 969-1065) parses the first query pair and runs the
validation chain; `result` starts at `-1` and the response body is
`String(result)` (lines 1066-1076). -/
def handleCameraSettings (sensor : Option (String → Int → Int))
    (st : CameraSettings) (header : String) :
    HttpResponse × CameraSettings × List (String × Int) :=
  match sensor with
  | none =>
    ({ status := "500 Internal Server Error", contentType := "text/plain",
       contentLength := none, body := "-1\r\n" }, st, [])
  | some s =>
    if strHas header "GET /camera/status" then
      let json := statusJson st
      ({ status := "200 OK", contentType := "application/json",
         contentLength := some json.length, body := json }, st, [])
    else
      let out :=
        if strHas header "GET /camera?" then
          let nv := parseParam header
          applySetting s st nv.1 nv.2
        else (-1, st, [])
      let response := toString out.1
      ({ status := "200 OK", contentType := "text/plain",
         contentLength := some response.length, body := response },
       out.2.1, out.2.2)

/-- Model of `digitalRead` on the indicator pin: the LED state as the
integer the sketch reports. -/
def digitalRead (led : Bool) : Int := if led then 1 else 0

/-- `handleLED` (sketch lines 876-913): literal substring match of the
three state tokens in priority order; `ledState` starts at `-1` and the
body is `String(ledState)`.  Returns the body and the new LED state. -/
def handleLED (led : Bool) (header : String) : String × Bool :=
  if strHas header "GET /led?state=1" then ("1", true)
  else if strHas header "GET /led?state=0" then ("0", false)
  else if strHas header "GET /led?state=2" then
    (toString (digitalRead led), led)
  else ("-1", led)

/-- The canonical header of a `GET /camera?name=value` request, with the
value rendered in decimal. -/
def mkCameraReq (name : String) (v : Int) : String :=
  "GET /camera?" ++ name ++ "=" ++ String.mk (intDec v) ++
    " HTTP/1.1\r\nHost: cam\r\n\r\n"

/-- A query-parameter name free of the delimiter characters the parser
splits on. -/
def plainName (s : String) : Prop :=
  ∀ c ∈ s.data, c ≠ '?' ∧ c ≠ '=' ∧ c ≠ ' '

instance (s : String) : Decidable (plainName s) := by
  unfold plainName; infer_instance

/-- The three route families of `handleWebClient` (sketch lines
822-850), in dispatch priority order. -/
inductive Route where
  | led | camera | page
deriving DecidableEq

/-- How one accepted control-port connection ends: the request never
completed (timeout/disconnect: loop left with no response), the size cap
aborted it (no response), or a route was dispatched (`none` when the
header matched no route and the loop just broke). -/
inductive WebOutcome where
  | timedOut
  | aborted
  | dispatched (r : Option Route)
deriving DecidableEq

/-- First-match routing on the raw header text (sketch lines 822-828). -/
def routeOf (header : List Char) : Option Route :=
  if hasSub header "GET /led".data then some Route.led
  else if hasSub header "GET /camera".data then some Route.camera
  else if hasSub header "GET /".data then some Route.page
  else none

/-- The accumulation loop of `handleWebClient` (sketch lines 802-861)
over the connection's byte stream: each byte is appended to `header`;
if the accumulated header exceeds 1024 bytes the connection is stopped
at once (lines 815-818); a `\n` on an empty `currentLine` dispatches by
`routeOf`; `\r` is never added to `currentLine`.  Exhausting the input
models the 2000 ms timeout / disconnect exit of the `while`. -/
def webLoop : List Char → List Char → List Char → WebOutcome
  | [], _, _ => WebOutcome.timedOut
  | c :: rest, header, curLine =>
    let header1 := header ++ [c]
    if 1024 < header1.length then WebOutcome.aborted
    else if c = '\n' then
      if curLine.isEmpty then WebOutcome.dispatched (routeOf header1)
      else webLoop rest header1 []
    else if c = '\r' then webLoop rest header1 curLine
    else webLoop rest header1 (curLine ++ [c])

/-- `handleWebClient` on a fresh connection: empty header and line. -/
def handleWebClient (input : List Char) : WebOutcome :=
  webLoop input [] []

/-- The route handler a finished connection invoked, if any: only a
dispatched outcome ever reaches a handler (and hence writes response
bytes). -/
def routeInvoked : WebOutcome → Option Route
  | WebOutcome.dispatched r => r
  | _ => none

/-- `noTerm lineEmpty cs` states that scanning `cs` (starting with the
current line empty iff `lineEmpty`) never reaches the blank-line header
terminator. -/
def noTerm : Bool → List Char → Bool
  | _, [] => true
  | lineEmpty, c :: rest =>
    if c = '\n' then
      if lineEmpty then false else noTerm true rest
    else if c = '\r' then noTerm lineEmpty rest
    else noTerm false rest

/-- Events of the streaming loop, abstracting the bytes written to the
stream client and the Frame-Source calls: a successful
`esp_camera_fb_get` of a frame of `n` bytes, the `--frame` part header,
one `client.write` chunk of a given size, the trailing `println`, and
`esp_camera_fb_return`. -/
inductive StreamEv where
  | got (n : Nat)
  | partHeader (n : Nat)
  | chunk (n : Nat)
  | crlf
  | release
deriving DecidableEq

def isGotEv : StreamEv → Bool
  | StreamEv.got _ => true
  | _ => false

def isRelEv : StreamEv → Bool
  | StreamEv.release => true
  | _ => false

def isChunkEv : StreamEv → Bool
  | StreamEv.chunk _ => true
  | _ => false

/-- Every chunk write is at most 4096 bytes (`chunkSize`, sketch line
736); other events are unconstrained. -/
def chunkOk : StreamEv → Bool
  | StreamEv.chunk s => decide (s ≤ 4096)
  | _ => true

/-- The chunked-write loop of `streamTask` (sketch lines 740-745): while
bytes remain and the client is connected, write `min remaining 4096`
bytes.  The stream client is modelled by its budget of `connected()`
checks that still answer true: a check decrements the budget, and a
client with budget `0` is disconnected for good.  Returns the chunk
events and the remaining budget. -/
def sendChunks : Nat → Nat → List StreamEv × Nat
  | conn, 0 => ([], conn)
  | conn, r + 1 =>
    if conn = 0 then ([], 0)
    else
      let s := min (r + 1) 4096
      let out := sendChunks (conn - 1) (r + 1 - s)
      (StreamEv.chunk s :: out.1, out.2)
termination_by _ r => r
decreasing_by
  have h1 : 0 < min (r + 1) 4096 := lt_min_iff.mpr ⟨by omega, by omega⟩
  omega

/-- Handling of one successfully captured frame of `n` bytes (sketch
lines 728-752): if the client is still connected, the part header is
printed and the body is sent in chunks, then a final connectivity check
guards the trailing `println`; `esp_camera_fb_return` runs in every case
once a frame was obtained (line 751 sits outside the connectivity
guard). -/
def frameSend (conn : Nat) (n : Nat) : List StreamEv × Nat :=
  if conn = 0 then ([StreamEv.release], 0)
  else
    let out := sendChunks (conn - 1) n
    if out.2 = 0 then
      (StreamEv.partHeader n :: (out.1 ++ [StreamEv.release]), 0)
    else
      (StreamEv.partHeader n :: (out.1 ++ [StreamEv.crlf, StreamEv.release]),
        out.2 - 1)

theorem sendChunks_conn_le : ∀ conn r, (sendChunks conn r).2 ≤ conn := by
  intro conn r
  induction r using Nat.strong_induction_on generalizing conn with
  | _ r ih =>
    match r with
    | 0 => simp [sendChunks]
    | r + 1 =>
      simp only [sendChunks]
      split
      · omega
      · have h1 : 0 < min (r + 1) 4096 := lt_min_iff.mpr ⟨by omega, by omega⟩
        have := ih (r + 1 - min (r + 1) 4096) (by omega) (conn - 1)
        simpa using by omega

theorem frameSend_conn_le : ∀ conn n, (frameSend conn n).2 ≤ conn := by
  intro conn n
  have h := sendChunks_conn_le (conn - 1) n
  simp only [frameSend]
  split
  · simp
  · split <;> simp
    omega

/-- The per-connection streaming loop of `streamTask` (sketch lines
719-762), driven by the client's connectivity budget and the successive
answers of the Frame Source (`frames`; `none` is a failed capture,
which is skipped silently).  The `while` guard, the pre-capture check,
the checks inside `frameSend` and the chunk loop each consume one
connectivity answer; the loop exits when a guard check fails.  Returns
all events and the final budget. -/
def streamLoop : Nat → List (Option Nat) → List StreamEv × Nat
  | 0, _ => ([], 0)
  | conn + 1, frames =>
    if conn = 0 then ([], 0)
    else
      match frames with
      | [] => streamLoop (conn - 1) []
      | none :: rest => streamLoop (conn - 1) rest
      | some n :: rest =>
        let fs := frameSend (conn - 1) n
        let out := streamLoop fs.2 rest
        (StreamEv.got n :: (fs.1 ++ out.1), out.2)
termination_by conn _ => conn
decreasing_by
  · omega
  · omega
  · have := frameSend_conn_le (conn - 1) n
    omega

/-! ### String and parser lemmas -/

theorem strData_append (a b : String) : (a ++ b).data = a.data ++ b.data :=
  rfl

theorem isPref_append_self : ∀ l r : List Char, isPref l (l ++ r) = true := by
  intro l r
  induction l with
  | nil => rfl
  | cons x xs ih => simp [isPref, ih]

theorem hasSub_of_isPref (hay pat : List Char)
    (h : isPref pat hay = true) : hasSub hay pat = true := by
  cases hay with
  | nil =>
    cases pat with
    | nil => rfl
    | cons p ps => simp [isPref] at h
  | cons c t => simp [hasSub, h]

theorem afterChar_split (c : Char) (l r : List Char) (h : c ∉ l) :
    afterChar c (l ++ c :: r) = some r := by
  induction l with
  | nil => simp [afterChar]
  | cons x xs ih =>
    have hx : ¬(x = c) := fun e => h (by simp [e])
    have hm : c ∉ xs := fun e => h (by simp [e])
    simp [afterChar, hx, ih hm]

theorem takeBeforeCharOpt_split (c : Char) (l r : List Char) (h : c ∉ l) :
    takeBeforeCharOpt c (l ++ c :: r) = some l := by
  induction l with
  | nil => simp [takeBeforeCharOpt]
  | cons x xs ih =>
    have hx : ¬(x = c) := fun e => h (by simp [e])
    have hm : c ∉ xs := fun e => h (by simp [e])
    simp [takeBeforeCharOpt, hx, ih hm]

theorem takeBeforeSubOpt_split (p : Char) (ps l r : List Char)
    (hl : ∀ x ∈ l, x ≠ p) (hr : isPref (p :: ps) r = true) :
    takeBeforeSubOpt (p :: ps) (l ++ r) = some l := by
  induction l with
  | nil =>
    cases r with
    | nil => simp [isPref] at hr
    | cons y ys => simp [takeBeforeSubOpt, hr]
  | cons x xs ih =>
    have hx : ¬(p = x) := fun e => hl x (by simp) e.symm
    have hpref : isPref (p :: ps) (x :: (xs ++ r)) = false := by
      simp [isPref, hx]
    simp [takeBeforeSubOpt, hpref,
      ih (fun y hy => hl y (by simp [hy]))]

/-! ### Decimal rendering round-trips through `atoi` -/

theorem natDecAux_acc : ∀ fuel n acc,
    natDecAux fuel n acc = natDecAux fuel n [] ++ acc := by
  intro fuel
  induction fuel with
  | zero => intro n acc; simp [natDecAux]
  | succ fuel ih =>
    intro n acc
    simp only [natDecAux]
    split
    · simp
    · rw [ih (n / 10) (digitChar (n % 10) :: acc),
        ih (n / 10) [digitChar (n % 10)]]
      simp

theorem digitChar_isDigit (n : Nat) : isDigitChar (digitChar n) = true := by
  unfold digitChar
  split <;> decide

theorem digitVal_digitChar (n : Nat) (h : n < 10) :
    digitVal (digitChar n) = (n : Int) := by
  interval_cases n <;> decide

theorem natDecAux_digits : ∀ fuel n, ∀ c ∈ natDecAux fuel n [],
    isDigitChar c = true := by
  intro fuel
  induction fuel with
  | zero => intro n c hc; simp [natDecAux] at hc
  | succ fuel ih =>
    intro n c hc
    simp only [natDecAux] at hc
    split at hc
    · simp at hc
      subst hc
      exact digitChar_isDigit n
    · rw [natDecAux_acc] at hc
      simp at hc
      rcases hc with hc | hc
      · exact ih (n / 10) c hc
      · subst hc
        exact digitChar_isDigit (n % 10)

theorem atoiDigits_append (ds rest : List Char) (a : Int)
    (h : ∀ c ∈ ds, isDigitChar c = true) :
    atoiDigits (ds ++ rest) a = atoiDigits rest (atoiDigits ds a) := by
  induction ds generalizing a with
  | nil => simp [atoiDigits]
  | cons c cs ih =>
    simp only [List.cons_append, atoiDigits]
    rw [if_pos (h c (by simp)), if_pos (h c (by simp))]
    exact ih (a * 10 + digitVal c) (fun x hx => h x (by simp [hx]))

theorem natDecAux_val : ∀ fuel n, n < 10 ^ fuel →
    atoiDigits (natDecAux fuel n []) 0 = (n : Int) := by
  intro fuel
  induction fuel with
  | zero => intro n hn; interval_cases n; simp [natDecAux, atoiDigits]
  | succ fuel ih =>
    intro n hn
    simp only [natDecAux]
    split
    · rename_i h10
      simp [atoiDigits, digitChar_isDigit n, digitVal_digitChar n h10]
    · rename_i h10
      rw [natDecAux_acc]
      have hdiv : n / 10 < 10 ^ fuel := by
        rw [Nat.div_lt_iff_lt_mul (by omega : 0 < 10)]
        calc n < 10 ^ (fuel + 1) := hn
          _ = 10 ^ fuel * 10 := by ring
      rw [atoiDigits_append _ _ _ (natDecAux_digits fuel (n / 10)),
        ih (n / 10) hdiv]
      have h9 : n % 10 < 10 := by omega
      simp [atoiDigits, digitChar_isDigit (n % 10),
        digitVal_digitChar (n % 10) h9]
      omega

theorem natDec_val (n : Nat) : atoiDigits (natDec n) 0 = (n : Int) := by
  have h : n < 10 ^ (n + 1) := by
    have h1 : n < 10 ^ n := Nat.lt_pow_self (by omega) n
    have h2 : 10 ^ n ≤ 10 ^ (n + 1) :=
      Nat.pow_le_pow_right (by omega) (by omega)
    omega
  exact natDecAux_val (n + 1) n h

theorem natDec_digits (n : Nat) : ∀ c ∈ natDec n, isDigitChar c = true :=
  natDecAux_digits (n + 1) n

theorem natDec_ne_nil (n : Nat) : natDec n ≠ [] := by
  unfold natDec
  simp only [natDecAux]
  split
  · simp
  · rw [natDecAux_acc]
    simp

theorem intDec_chars (v : Int) :
    ∀ c ∈ intDec v, isDigitChar c = true ∨ c = '-' := by
  unfold intDec
  split
  · intro c hc
    simp at hc
    rcases hc with hc | hc
    · right; exact hc
    · left; exact natDec_digits _ c hc
  · intro c hc
    left; exact natDec_digits _ c hc

theorem digit_not_space (c : Char) (h : isDigitChar c = true) :
    isSpaceChar c = false := by
  have hn : 48 ≤ c.toNat ∧ c.toNat ≤ 57 := by simpa [isDigitChar] using h
  have h1 : ¬(c = ' ') := fun e => absurd hn (by subst e; decide)
  have h2 : ¬(c = '\t') := fun e => absurd hn (by subst e; decide)
  have h3 : ¬(c = '\n') := fun e => absurd hn (by subst e; decide)
  have h4 : ¬(c = '\r') := fun e => absurd hn (by subst e; decide)
  have h5 : ¬(c = '\x0B') := fun e => absurd hn (by subst e; decide)
  have h6 : ¬(c = '\x0C') := fun e => absurd hn (by subst e; decide)
  simp [isSpaceChar, h1, h2, h3, h4, h5, h6]

theorem digit_not_sign (c : Char) (h : isDigitChar c = true) :
    ¬(c = '-') ∧ ¬(c = '+') := by
  have hn : 48 ≤ c.toNat ∧ c.toNat ≤ 57 := by simpa [isDigitChar] using h
  exact ⟨fun e => absurd hn (by subst e; decide),
    fun e => absurd hn (by subst e; decide)⟩

theorem atoi_natDec (n : Nat) : atoi (natDec n) = (n : Int) := by
  obtain ⟨c, cs, hecs⟩ : ∃ c cs, natDec n = c :: cs := by
    cases h : natDec n with
    | nil => exact absurd h (natDec_ne_nil n)
    | cons c cs => exact ⟨c, cs, rfl⟩
  have hd : isDigitChar c = true := by
    apply natDec_digits n
    rw [hecs]; simp
  unfold atoi
  rw [hecs]
  rw [List.dropWhile_cons_of_neg (by simp [digit_not_space c hd])]
  simp only [atoiSigned]
  rw [if_neg (digit_not_sign c hd).1, if_neg (digit_not_sign c hd).2]
  rw [← hecs]
  exact natDec_val n

theorem atoi_intDec (v : Int) : atoi (intDec v) = v := by
  unfold intDec
  split
  · rename_i hv
    unfold atoi
    rw [List.dropWhile_cons_of_neg (by decide)]
    simp only [atoiSigned]
    rw [if_pos trivial]
    rw [natDec_val v.natAbs]
    omega
  · rename_i hv
    rw [atoi_natDec v.toNat]
    omega

theorem strData_mk (l : List Char) : (String.mk l).data = l := rfl

theorem strMk_eta (s : String) : String.mk s.data = s := rfl

theorem intDec_not_space (v : Int) : ∀ c ∈ intDec v, ¬(c = ' ') := by
  intro c hc
  rcases intDec_chars v c hc with h | h
  · exact fun e => absurd h (by subst e; decide)
  · subst h; decide

theorem mkCameraReq_data (name : String) (v : Int) :
    (mkCameraReq name v).data =
      "GET /camera".data ++ '?' ::
        ((name.data ++ '=' :: intDec v) ++
          " HTTP/1.1\r\nHost: cam\r\n\r\n".data) := by
  have h1 : "GET /camera?".data = "GET /camera".data ++ ['?'] := by decide
  have h2 : ("=" : String).data = ['='] := by decide
  simp only [mkCameraReq, strData_append, strData_mk, h1, h2]
  simp [List.append_assoc]

theorem parseParam_canonical (name : String) (v : Int)
    (hn : plainName name) :
    parseParam (mkCameraReq name v) = (name, v) := by
  have hq : '?' ∉ "GET /camera".data := by decide
  have heq : ¬('=' ∈ name.data) := fun hmem => (hn '=' hmem).2.1 rfl
  have hl : ∀ x ∈ name.data ++ '=' :: intDec v, ¬(x = ' ') := by
    intro x hx
    rcases List.mem_append.mp hx with hx | hx
    · exact (hn x hx).2.2
    · rcases List.mem_cons.mp hx with hx | hx
      · subst hx; decide
      · exact intDec_not_space v x hx
  have h3 : (" HTTP" : String).data = ' ' :: ("HTTP" : String).data := by
    decide
  have hpref :
      isPref (' ' :: ("HTTP" : String).data)
        (" HTTP/1.1\r\nHost: cam\r\n\r\n" : String).data = true := by decide
  unfold parseParam
  rw [mkCameraReq_data name v, afterChar_split _ _ _ hq]
  simp only [Option.getD_some, h3]
  rw [takeBeforeSubOpt_split _ _ _ _ hl hpref]
  simp only [Option.getD_some]
  rw [takeBeforeCharOpt_split _ _ _ heq, afterChar_split _ _ _ heq]
  simp only [Option.getD_some]
  rw [strMk_eta, atoi_intDec]

theorem mkCameraReq_hasQ (name : String) (v : Int) :
    strHas (mkCameraReq name v) "GET /camera?" = true := by
  unfold strHas
  apply hasSub_of_isPref
  simp only [mkCameraReq, strData_append, List.append_assoc]
  exact isPref_append_self _ _

/-- On a canonical `GET /camera?name=value` request whose header does not
accidentally contain the literal `GET /camera/status`, the settings
handler is the validation chain followed by the `String(result)`
response. -/
theorem handleCanonical (f : String → Int → Int) (st : CameraSettings)
    (name : String) (v : Int) (hn : plainName name)
    (hs : strHas (mkCameraReq name v) "GET /camera/status" = false) :
    handleCameraSettings (some f) st (mkCameraReq name v) =
      ({ status := "200 OK", contentType := "text/plain",
         contentLength := some (toString (applySetting f st name v).1).length,
         body := toString (applySetting f st name v).1 },
       (applySetting f st name v).2.1, (applySetting f st name v).2.2) := by
  unfold handleCameraSettings
  simp only [hs, mkCameraReq_hasQ name v, parseParam_canonical name v hn,
    Bool.false_eq_true, if_false, if_true]

/-! ### Validation-chain lemmas -/

theorem matchRow_iff (name : String) (v : Int) (row : SettingRow) :
    matchRow name v row = true ↔
      (name = row.key ∧ row.lo ≤ v ∧ v ≤ row.hi) := by
  simp [matchRow, and_assoc]

theorem applySetting_invalid (f : String → Int → Int)
    (st : CameraSettings) (name : String) (v : Int)
    (h : ¬ tableValid name v) :
    applySetting f st name v = (-1, st, []) := by
  have hnone : settingsTable.find? (matchRow name v) = none := by
    rw [List.find?_eq_none]
    intro row hrow hmatch
    exact h ⟨row, hrow, (matchRow_iff name v row).mp hmatch⟩
  simp [applySetting, hnone]

theorem applySetting_valid (f : String → Int → Int)
    (st : CameraSettings) (name : String) (v : Int)
    (h : tableValid name v) :
    ∃ row, row ∈ settingsTable ∧ row.key = name ∧
      applySetting f st name v =
        (f name v, if f name v = 0 then row.commit st v else st,
          [(name, v)]) := by
  obtain ⟨row0, hrow0, hkey0, hlo0, hhi0⟩ := h
  have hsome : (settingsTable.find? (matchRow name v)).isSome := by
    rw [List.find?_isSome]
    exact ⟨row0, hrow0, (matchRow_iff _ _ _).mpr ⟨hkey0, hlo0, hhi0⟩⟩
  obtain ⟨row, hfind⟩ := Option.isSome_iff_exists.mp hsome
  have hp := List.find?_some hfind
  have hmem := List.mem_of_find?_eq_some hfind
  obtain ⟨hkey, hlo, hhi⟩ := (matchRow_iff _ _ _).mp hp
  refine ⟨row, hmem, hkey.symm, ?_⟩
  simp [applySetting, hfind, ← hkey]

theorem applySetting_fail (f : String → Int → Int)
    (st : CameraSettings) (name : String) (v : Int)
    (h : tableValid name v) (hf : f name v ≠ 0) :
    applySetting f st name v = (f name v, st, [(name, v)]) := by
  obtain ⟨row, _, _, heq⟩ := applySetting_valid f st name v h
  rw [heq, if_neg hf]

theorem commitIdem : ∀ row ∈ settingsTable, ∀ st v,
    row.commit (row.commit st v) v = row.commit st v := by
  intro row hrow
  fin_cases hrow <;> exact fun st v => rfl

theorem applySetting_idem (f : String → Int → Int)
    (st : CameraSettings) (name : String) (v : Int) :
    applySetting f (applySetting f st name v).2.1 name v =
      applySetting f st name v := by
  cases hfind : settingsTable.find? (matchRow name v) with
  | none => simp [applySetting, hfind]
  | some row =>
    have hmem := List.mem_of_find?_eq_some hfind
    by_cases hr : f row.key v = 0
    · simp [applySetting, hfind, hr, commitIdem row hmem]
    · simp [applySetting, hfind, hr]

theorem applySetting_gainceiling (f : String → Int → Int)
    (st : CameraSettings) (v : Int) :
    applySetting f st "gainceiling" v =
      if 2 ≤ v ∧ v ≤ 128 then
        (f "gainceiling" v,
         if f "gainceiling" v = 0 then { st with gainceiling := v } else st,
         [("gainceiling", v)])
      else (-1, st, []) := by
  by_cases h1 : 2 ≤ v <;> by_cases h2 : v ≤ 128 <;>
    simp [applySetting, settingsTable, matchRow, List.find?, h1, h2]

/-! ### Web Serving Context lemmas -/

theorem webLoop_abort : ∀ (input header curLine : List Char),
    header.length ≤ 1024 →
    1024 < header.length + input.length →
    noTerm curLine.isEmpty (input.take (1024 - header.length)) = true →
    webLoop input header curLine = WebOutcome.aborted := by
  intro input
  induction input with
  | nil =>
    intro header curLine h1 h2 h3
    exfalso
    simp only [List.length_nil] at h2
    omega
  | cons c rest ih =>
    intro header curLine h1 h2 h3
    simp only [webLoop]
    by_cases hcap : 1024 < (header ++ [c]).length
    · rw [if_pos hcap]
    · rw [if_neg hcap]
      have hlen : (header ++ [c]).length = header.length + 1 := by simp
      have hle : (header ++ [c]).length ≤ 1024 := by omega
      obtain ⟨k, hk⟩ : ∃ k, 1024 - header.length = k + 1 :=
        ⟨1023 - header.length, by omega⟩
      have hk2 : 1024 - (header ++ [c]).length = k := by omega
      rw [hk, List.take_succ_cons] at h3
      have htot : 1024 < (header ++ [c]).length + rest.length := by
        simp only [List.length_cons] at h2
        omega
      by_cases hnl : c = '\n'
      · rw [if_pos hnl]
        subst hnl
        simp only [noTerm, if_true] at h3
        by_cases hemp : curLine.isEmpty = true
        · rw [if_pos hemp] at h3
          exact absurd h3 (by simp)
        · rw [if_neg hemp] at h3
          rw [if_neg hemp]
          apply ih (header ++ ['\n']) [] hle htot
          rw [hk2]
          exact h3
      · rw [if_neg hnl]
        simp only [noTerm] at h3
        rw [if_neg hnl] at h3
        by_cases hcr : c = '\r'
        · rw [if_pos hcr]
          rw [if_pos hcr] at h3
          apply ih (header ++ [c]) curLine hle htot
          rw [hk2]
          exact h3
        · rw [if_neg hcr]
          rw [if_neg hcr] at h3
          have hne : (curLine ++ [c]).isEmpty = false := by simp
          apply ih (header ++ [c]) (curLine ++ [c]) hle htot
          rw [hk2, hne]
          exact h3

/-! ### Streaming Context lemmas -/

theorem sendChunks_spec : ∀ r conn,
    (∀ e ∈ (sendChunks conn r).1,
        chunkOk e = true ∧ isGotEv e = false ∧ isRelEv e = false) ∧
    (sendChunks conn r).1.countP isChunkEv + (sendChunks conn r).2 ≤
      conn := by
  intro r
  induction r using Nat.strong_induction_on with
  | _ r ih =>
    intro conn
    match r with
    | 0 => simp [sendChunks]
    | r + 1 =>
      by_cases hc : conn = 0
      · simp [sendChunks, hc]
      · have hmin : 0 < min (r + 1) 4096 :=
          lt_min_iff.mpr ⟨by omega, by omega⟩
        have hrec := ih (r + 1 - min (r + 1) 4096) (by omega) (conn - 1)
        simp only [sendChunks, if_neg hc]
        constructor
        · intro e he
          simp only [List.mem_cons] at he
          rcases he with rfl | he
          · refine ⟨?_, rfl, rfl⟩
            simp only [chunkOk, decide_eq_true_eq]
            exact Nat.min_le_right _ _
          · exact hrec.1 e he
        · simp only [List.countP_cons, isChunkEv, if_pos]
          have := hrec.2
          omega

theorem frameSend_spec (conn n : Nat) :
    ((frameSend conn n).1.countP isGotEv = 0) ∧
    ((frameSend conn n).1.countP isRelEv = 1) ∧
    (∀ e ∈ (frameSend conn n).1, chunkOk e = true) ∧
    (frameSend conn n).1.countP isChunkEv + (frameSend conn n).2 ≤
      conn := by
  by_cases hc : conn = 0
  · subst hc
    simp [frameSend, isGotEv, isRelEv, isChunkEv, chunkOk]
  · have hsc := sendChunks_spec n (conn - 1)
    have hgot0 : (sendChunks (conn - 1) n).1.countP isGotEv = 0 :=
      List.countP_eq_zero.mpr (fun e he => by simp [(hsc.1 e he).2.1])
    have hrel0 : (sendChunks (conn - 1) n).1.countP isRelEv = 0 :=
      List.countP_eq_zero.mpr (fun e he => by simp [(hsc.1 e he).2.2])
    have hcount := hsc.2
    simp only [frameSend, if_neg hc]
    by_cases hz : (sendChunks (conn - 1) n).2 = 0
    · rw [if_pos hz]
      refine ⟨?_, ?_, ?_, ?_⟩
      · simp [List.countP_cons, List.countP_append, hgot0, isGotEv,
          isRelEv]
      · simp [List.countP_cons, List.countP_append, hrel0, isGotEv,
          isRelEv]
      · intro e he
        rcases List.mem_cons.mp he with rfl | he2
        · rfl
        · rcases List.mem_append.mp he2 with h | h
          · exact (hsc.1 e h).1
          · simp only [List.mem_singleton] at h
            subst h
            rfl
      · simp [List.countP_cons, List.countP_append, isChunkEv]
        omega
    · rw [if_neg hz]
      refine ⟨?_, ?_, ?_, ?_⟩
      · simp [List.countP_cons, List.countP_append, hgot0, isGotEv,
          isRelEv]
      · simp [List.countP_cons, List.countP_append, hrel0, isGotEv,
          isRelEv]
      · intro e he
        rcases List.mem_cons.mp he with rfl | he2
        · rfl
        · rcases List.mem_append.mp he2 with h | h
          · exact (hsc.1 e h).1
          · simp only [List.mem_cons, List.mem_singleton,
              List.not_mem_nil, or_false] at h
            rcases h with rfl | rfl <;> rfl
      · simp [List.countP_cons, List.countP_append, isChunkEv]
        omega

theorem streamLoop_spec : ∀ conn frames,
    ((streamLoop conn frames).1.countP isGotEv =
      (streamLoop conn frames).1.countP isRelEv) ∧
    (∀ e ∈ (streamLoop conn frames).1, chunkOk e = true) ∧
    ((streamLoop conn frames).1.countP isChunkEv +
      (streamLoop conn frames).2 ≤ conn) ∧
    (streamLoop conn frames).2 = 0 := by
  intro conn
  induction conn using Nat.strong_induction_on with
  | _ conn ih =>
    intro frames
    match conn with
    | 0 => simp [streamLoop]
    | conn + 1 =>
      match frames with
      | [] =>
        simp only [streamLoop]
        by_cases hc : conn = 0
        · rw [if_pos hc]
          exact ⟨rfl, by simp, by simp, rfl⟩
        · rw [if_neg hc]
          have hrec := ih (conn - 1) (by omega) []
          exact ⟨hrec.1, hrec.2.1, by have := hrec.2.2.1; omega,
            hrec.2.2.2⟩
      | none :: rest =>
        simp only [streamLoop]
        by_cases hc : conn = 0
        · rw [if_pos hc]
          exact ⟨rfl, by simp, by simp, rfl⟩
        · rw [if_neg hc]
          have hrec := ih (conn - 1) (by omega) rest
          exact ⟨hrec.1, hrec.2.1, by have := hrec.2.2.1; omega,
            hrec.2.2.2⟩
      | some n :: rest =>
        simp only [streamLoop]
        by_cases hc : conn = 0
        · rw [if_pos hc]
          exact ⟨rfl, by simp, by simp, rfl⟩
        · rw [if_neg hc]
          have hfs := frameSend_spec (conn - 1) n
          have hle := frameSend_conn_le (conn - 1) n
          have hrec := ih (frameSend (conn - 1) n).2 (by omega) rest
          have hg := hfs.1
          have hr := hfs.2.1
          have hcnt := hfs.2.2.2
          have hrecg := hrec.1
          have hreccnt := hrec.2.2.1
          have hrecfin := hrec.2.2.2
          refine ⟨?_, ?_, ?_, hrecfin⟩
          · simp [List.countP_cons, List.countP_append, isGotEv,
              isRelEv, hg, hr, hrecg]
            omega
          · intro e he
            rcases List.mem_cons.mp he with rfl | he2
            · rfl
            · rcases List.mem_append.mp he2 with h | h
              · exact hfs.2.2.1 e h
              · exact hrec.2.1 e h
          · simp [List.countP_cons, List.countP_append, isChunkEv]
            omega

/-! ### Claim theorems -/

/-- Claim C2: every rejected `GET /camera?name=value` update — unknown
name or out-of-range value (response `-1`, setter never invoked), or
setter returning a nonzero code (that code is the body) — leaves every
field of the Control-Surface State exactly as it was; no update is
partially applied. -/
theorem C2_rejected_update_unchanged (f : String → Int → Int)
    (st : CameraSettings) (name : String) (v : Int)
    (hn : plainName name)
    (hs : strHas (mkCameraReq name v) "GET /camera/status" = false) :
    (¬ tableValid name v →
      handleCameraSettings (some f) st (mkCameraReq name v) =
        ({ status := "200 OK", contentType := "text/plain",
           contentLength := some 2, body := "-1" }, st, [])) ∧
    (tableValid name v → f name v ≠ 0 →
      handleCameraSettings (some f) st (mkCameraReq name v) =
        ({ status := "200 OK", contentType := "text/plain",
           contentLength := some (toString (f name v)).length,
           body := toString (f name v) }, st, [(name, v)])) := by
  constructor
  · intro hinv
    rw [handleCanonical f st name v hn hs,
      applySetting_invalid f st name v hinv]
    rfl
  · intro htv hf
    rw [handleCanonical f st name v hn hs,
      applySetting_fail f st name v htv hf]

/-- Witness for C2: a concrete rejected-name update and a concrete
setter-failure update, both leaving the state untouched. -/
theorem C2_rejected_update_unchanged_witness :
    handleCameraSettings (some (fun _ _ => 0)) (initialSettings 13)
        (mkCameraReq "bogus" 3) =
      ({ status := "200 OK", contentType := "text/plain",
         contentLength := some 2, body := "-1" },
       initialSettings 13, []) ∧
    handleCameraSettings (some (fun _ _ => 5)) (initialSettings 13)
        (mkCameraReq "brightness" 1) =
      ({ status := "200 OK", contentType := "text/plain",
         contentLength := some 1, body := "5" }, initialSettings 13,
       [("brightness", 1)]) := by
  refine ⟨?_, ?_⟩
  · exact (C2_rejected_update_unchanged (fun _ _ => 0)
      (initialSettings 13) "bogus" 3 (by decide) (by decide)).1
      (by decide)
  · exact (C2_rejected_update_unchanged (fun _ _ => 5)
      (initialSettings 13) "brightness" 1 (by decide) (by decide)).2
      (by decide) (by decide)

set_option maxRecDepth 10000 in
/-- Claim C1 (code bug): a successful `GET /camera?quality=30` (setter
returns 0) responds `"0"` and commits 30 into the record's `quality`
field, leaving all other fields unchanged — but a subsequent
`GET /camera/status` does *not* reflect that value, because the status
serializer (sketch lines 936-955) never emits a `quality` key.  The
claim's "status reflects exactly that value" clause therefore fails on
the code, while the commit/response part holds. -/
theorem C1_quality_commit_not_reflected :
    (handleCameraSettings (some (fun _ _ => 0)) (initialSettings 13)
        (mkCameraReq "quality" 30)).1.body = "0" ∧
    (handleCameraSettings (some (fun _ _ => 0)) (initialSettings 13)
        (mkCameraReq "quality" 30)).2.1 =
      { initialSettings 13 with quality := 30 } ∧
    (handleCameraSettings (some (fun _ _ => 0)) (initialSettings 13)
        (mkCameraReq "quality" 30)).2.2 = [("quality", 30)] ∧
    (handleCameraSettings (some (fun _ _ => 0))
        { initialSettings 13 with quality := 30 }
        "GET /camera/status HTTP/1.1").1.body =
      statusJson { initialSettings 13 with quality := 30 } ∧
    strHas (statusJson { initialSettings 13 with quality := 30 })
      "\"quality\"" = false := by
  decide

set_option maxRecDepth 10000 in
/-- Claim C3 (code bug): the `/camera/status` response is 200
`application/json` with `Content-Length` equal to the body length, but
the body is *not* one entry per Control-Surface State field: the
`special_effect` and `colorbar` keys appear twice, `quality` and
`framesize` never appear, and the comma missing after the first
`colorbar` entry (line 952) leaves `"colorbar":0"special_effect"`
glued together, so the body is not even well-formed JSON. -/
theorem C3_status_serialization_defects :
    (handleCameraSettings (some (fun _ _ => 0)) (initialSettings 13)
        "GET /camera/status HTTP/1.1").1.status = "200 OK" ∧
    (handleCameraSettings (some (fun _ _ => 0)) (initialSettings 13)
        "GET /camera/status HTTP/1.1").1.contentType =
      "application/json" ∧
    (handleCameraSettings (some (fun _ _ => 0)) (initialSettings 13)
        "GET /camera/status HTTP/1.1").1.contentLength =
      some (handleCameraSettings (some (fun _ _ => 0))
        (initialSettings 13)
        "GET /camera/status HTTP/1.1").1.body.length ∧
    countSub (statusJson (initialSettings 13)).data
      "\"special_effect\":".data = 2 ∧
    countSub (statusJson (initialSettings 13)).data
      "\"colorbar\":".data = 2 ∧
    strHas (statusJson (initialSettings 13)) "\"quality\"" = false ∧
    strHas (statusJson (initialSettings 13)) "\"framesize\"" = false ∧
    strHas (statusJson (initialSettings 13))
      "\"colorbar\":0\"special_effect\"" = true := by
  decide

/-- Counterexample to claim C4 as stated: when the Frame-Source handle
is unavailable (`esp_camera_sensor_get()` returns NULL, sketch lines
920-928), `GET /camera/status` yields a 500 `text/plain` `-1` response,
not the 200 `application/json` snapshot — so the status path is not
independent of Frame-Source availability. -/
theorem C4_sensor_unavailable_counterexample :
    (handleCameraSettings none (initialSettings 13)
        "GET /camera/status HTTP/1.1").1.status =
      "500 Internal Server Error" ∧
    (handleCameraSettings none (initialSettings 13)
        "GET /camera/status HTTP/1.1").1.contentType = "text/plain" ∧
    (handleCameraSettings none (initialSettings 13)
        "GET /camera/status HTTP/1.1").1.body = "-1\r\n" ∧
    (handleCameraSettings none (initialSettings 13)
        "GET /camera/status HTTP/1.1").1.body ≠
      statusJson (initialSettings 13) := by
  decide

/-- Claim C4 (amended): when the Frame-Source handle is available,
handling `GET /camera/status` invokes no Frame-Source setter, leaves
the state unchanged, and yields the 200 `application/json` snapshot
computed solely from the Control-Surface State record; when the handle
is unavailable, the handler instead responds 500 `text/plain` `-1`,
also without touching state or setters. -/
theorem C4_status_snapshot_amended (f : String → Int → Int)
    (st : CameraSettings) (header : String)
    (h : strHas header "GET /camera/status" = true) :
    handleCameraSettings (some f) st header =
      ({ status := "200 OK", contentType := "application/json",
         contentLength := some (statusJson st).length,
         body := statusJson st }, st, []) ∧
    handleCameraSettings none st header =
      ({ status := "500 Internal Server Error",
         contentType := "text/plain",
         contentLength := none, body := "-1\r\n" }, st, []) := by
  constructor
  · simp [handleCameraSettings, h]
  · rfl

/-- Witness for C4 (amended) at a concrete request and state. -/
theorem C4_status_snapshot_amended_witness :
    (handleCameraSettings (some (fun _ _ => 0)) (initialSettings 13)
        "GET /camera/status HTTP/1.1").1.contentType =
      "application/json" ∧
    (handleCameraSettings none (initialSettings 13)
        "GET /camera/status HTTP/1.1").1.status =
      "500 Internal Server Error" := by
  have h := C4_status_snapshot_amended (fun _ _ => 0)
    (initialSettings 13) "GET /camera/status HTTP/1.1" (by decide)
  exact ⟨by rw [h.1], by rw [h.2]⟩

/-- Claim C5: the LED handler recognizes exactly three state tokens by
literal substring in priority order — token `1` sets the indicator high
and replies `"1"`, token `0` sets it low and replies `"0"`, token `2`
mutates nothing and replies with the current indicator state in
decimal, and with no recognized token the indicator is unchanged and
the reply is `"-1"`; moreover `state=1` then `state=2` returns `"1"`,
and `state=0` then `state=2` returns `"0"`. -/
theorem C5_led_states (led : Bool) (header : String) :
    (strHas header "GET /led?state=1" = true →
      handleLED led header = ("1", true)) ∧
    (strHas header "GET /led?state=1" = false →
      strHas header "GET /led?state=0" = true →
      handleLED led header = ("0", false)) ∧
    (strHas header "GET /led?state=1" = false →
      strHas header "GET /led?state=0" = false →
      strHas header "GET /led?state=2" = true →
      handleLED led header = (toString (digitalRead led), led)) ∧
    (strHas header "GET /led?state=1" = false →
      strHas header "GET /led?state=0" = false →
      strHas header "GET /led?state=2" = false →
      handleLED led header = ("-1", led)) ∧
    (handleLED (handleLED led "GET /led?state=1 HTTP/1.1").2
        "GET /led?state=2 HTTP/1.1").1 = "1" ∧
    (handleLED (handleLED led "GET /led?state=0 HTTP/1.1").2
        "GET /led?state=2 HTTP/1.1").1 = "0" := by
  refine ⟨?_, ?_, ?_, ?_, ?_, ?_⟩
  · intro h1
    simp [handleLED, h1]
  · intro h1 h0
    simp [handleLED, h1, h0]
  · intro h1 h0 h2
    simp [handleLED, h1, h0, h2]
  · intro h1 h0 h2
    simp [handleLED, h1, h0, h2]
  · rfl
  · rfl

/-- Witness for C5 at concrete requests and indicator states. -/
theorem C5_led_states_witness :
    handleLED false "GET /led?state=1 HTTP/1.1" = ("1", true) ∧
    handleLED true "GET /led?state=0 HTTP/1.1" = ("0", false) ∧
    handleLED true "GET /led?state=2 HTTP/1.1" = ("1", true) ∧
    handleLED true "GET /led?foo HTTP/1.1" = ("-1", true) := by
  refine ⟨?_, ?_, ?_, ?_⟩
  · exact (C5_led_states false "GET /led?state=1 HTTP/1.1").1 (by decide)
  · exact (C5_led_states true "GET /led?state=0 HTTP/1.1").2.1
      (by decide) (by decide)
  · exact (C5_led_states true "GET /led?state=2 HTTP/1.1").2.2.1
      (by decide) (by decide) (by decide)
  · exact (C5_led_states true "GET /led?foo HTTP/1.1").2.2.2.1
      (by decide) (by decide) (by decide)

/-- Claim C6: in the per-connection streaming loop, every frame obtained
from the Frame Source is released back to it (releases and successful
captures balance), every body chunk written is at most 4096 bytes, each
chunk consumed a preceding successful connectivity check (so the chunk
count is bounded by the client's connectivity budget), and the loop
always exits with the client disconnected, after which `streamTask`
returns to accepting the next connection. -/
theorem C6_stream_release_and_chunks (conn : Nat)
    (frames : List (Option Nat)) :
    ((streamLoop conn frames).1.countP isGotEv =
      (streamLoop conn frames).1.countP isRelEv) ∧
    (∀ e ∈ (streamLoop conn frames).1, chunkOk e = true) ∧
    ((streamLoop conn frames).1.countP isChunkEv +
      (streamLoop conn frames).2 ≤ conn) ∧
    (streamLoop conn frames).2 = 0 :=
  streamLoop_spec conn frames

/-- Witness for C6 at a concrete connection: a 5000-byte frame and a
failed capture on a client that disconnects mid-stream. -/
theorem C6_stream_release_and_chunks_witness :
    ((streamLoop 6 [some 5000, none]).1.countP isGotEv =
      (streamLoop 6 [some 5000, none]).1.countP isRelEv) ∧
    (streamLoop 6 [some 5000, none]).2 = 0 := by
  have h := C6_stream_release_and_chunks 6 [some 5000, none]
  exact ⟨h.1, h.2.2.2⟩

/-- Claim C7: if the accumulated request buffer exceeds the 1024-byte
cap before the blank-line header terminator is seen, the Web Serving
Context closes the connection at that point with no response written
and no route handler invoked. -/
theorem C7_oversize_abort (input : List Char)
    (hlen : 1024 < input.length)
    (hterm : noTerm true (input.take 1024) = true) :
    handleWebClient input = WebOutcome.aborted ∧
    routeInvoked (handleWebClient input) = none := by
  have h := webLoop_abort input [] [] (by simp) (by simpa using hlen)
    (by simpa using hterm)
  constructor
  · unfold handleWebClient
    exact h
  · unfold handleWebClient
    rw [h]
    rfl

theorem noTerm_replicate (n : Nat) (b : Bool) :
    noTerm b (List.replicate n 'a') = true := by
  induction n generalizing b with
  | zero => rfl
  | succ n ih =>
    simp only [List.replicate, noTerm]
    exact ih false

/-- Witness for C7: 1025 bytes of `a` with no terminator abort the
connection. -/
theorem C7_oversize_abort_witness :
    handleWebClient (List.replicate 1025 'a') = WebOutcome.aborted ∧
    routeInvoked (handleWebClient (List.replicate 1025 'a')) = none := by
  apply C7_oversize_abort
  · rw [List.length_replicate]
    omega
  · have ht : (List.replicate 1025 'a').take 1024 =
        List.replicate 1024 'a' := by
      rw [List.take_replicate]
      norm_num
    rw [ht]
    exact noTerm_replicate 1024 true

set_option maxRecDepth 4000 in
/-- Counterexample to claim C8 as stated: value 3 is none of the
declared enum values {2, 4, 8, 16, 32, 64, 128}, yet
`GET /camera?gainceiling=3` invokes the setter, responds `"0"` and
commits 3 — because the code (sketch line 1036) checks the interval
`2 <= value <= 128`, not enum membership. -/
theorem C8_gainceiling_enum_counterexample :
    ¬((3 : Int) = 2 ∨ (3 : Int) = 4 ∨ (3 : Int) = 8 ∨ (3 : Int) = 16 ∨
      (3 : Int) = 32 ∨ (3 : Int) = 64 ∨ (3 : Int) = 128) ∧
    (handleCameraSettings (some (fun _ _ => 0)) (initialSettings 13)
        (mkCameraReq "gainceiling" 3)).1.body = "0" ∧
    (handleCameraSettings (some (fun _ _ => 0)) (initialSettings 13)
        (mkCameraReq "gainceiling" 3)).2.2 = [("gainceiling", 3)] ∧
    (handleCameraSettings (some (fun _ _ => 0)) (initialSettings 13)
        (mkCameraReq "gainceiling" 3)).2.1 =
      { initialSettings 13 with gainceiling := 3 } := by
  decide

/-- Claim C8 (amended): a `GET /camera?gainceiling=value` update is
accepted — setter invoked and, on success, committed — exactly when
`2 ≤ value ≤ 128`; for every value outside that interval the response
body is `"-1"` and no mutation or setter call occurs. -/
theorem C8_gainceiling_interval (f : String → Int → Int)
    (st : CameraSettings) (v : Int)
    (hs : strHas (mkCameraReq "gainceiling" v)
      "GET /camera/status" = false) :
    (2 ≤ v ∧ v ≤ 128 →
      handleCameraSettings (some f) st (mkCameraReq "gainceiling" v) =
        ({ status := "200 OK", contentType := "text/plain",
           contentLength := some (toString (f "gainceiling" v)).length,
           body := toString (f "gainceiling" v) },
         if f "gainceiling" v = 0 then { st with gainceiling := v }
         else st,
         [("gainceiling", v)])) ∧
    (¬(2 ≤ v ∧ v ≤ 128) →
      handleCameraSettings (some f) st (mkCameraReq "gainceiling" v) =
        ({ status := "200 OK", contentType := "text/plain",
           contentLength := some 2, body := "-1" }, st, [])) := by
  have hcanon := handleCanonical f st "gainceiling" v (by decide) hs
  constructor
  · intro hr
    rw [hcanon, applySetting_gainceiling, if_pos hr]
  · intro hr
    rw [hcanon, applySetting_gainceiling, if_neg hr]
    rfl

/-- Witness for C8 (amended): an accepted in-interval value and a
rejected out-of-interval value. -/
theorem C8_gainceiling_interval_witness :
    handleCameraSettings (some (fun _ _ => 0)) (initialSettings 13)
        (mkCameraReq "gainceiling" 8) =
      ({ status := "200 OK", contentType := "text/plain",
         contentLength := some 1, body := "0" },
       { initialSettings 13 with gainceiling := 8 },
       [("gainceiling", 8)]) ∧
    handleCameraSettings (some (fun _ _ => 0)) (initialSettings 13)
        (mkCameraReq "gainceiling" 200) =
      ({ status := "200 OK", contentType := "text/plain",
         contentLength := some 2, body := "-1" },
       initialSettings 13, []) := by
  constructor
  · exact (C8_gainceiling_interval (fun _ _ => 0) (initialSettings 13) 8
      (by decide)).1 (by decide)
  · exact (C8_gainceiling_interval (fun _ _ => 0) (initialSettings 13)
      200 (by decide)).2 (by decide)

/-- Claim C9: the settings update handler is idempotent — issuing the
same `GET /camera?name=value` update twice, with the Frame-Source
setter behaving the same way both times, yields the same response both
times and a Control-Surface State after the second call identical to
the state after the first. -/
theorem C9_update_idempotent (f : String → Int → Int)
    (st : CameraSettings) (name : String) (v : Int)
    (hn : plainName name)
    (hs : strHas (mkCameraReq name v) "GET /camera/status" = false) :
    handleCameraSettings (some f)
        (handleCameraSettings (some f) st (mkCameraReq name v)).2.1
        (mkCameraReq name v) =
      handleCameraSettings (some f) st (mkCameraReq name v) := by
  rw [handleCanonical f st name v hn hs]
  dsimp only
  rw [handleCanonical f (applySetting f st name v).2.1 name v hn hs,
    applySetting_idem]

/-- Witness for C9 at a concrete valid update. -/
theorem C9_update_idempotent_witness :
    handleCameraSettings (some (fun _ _ => 0))
        (handleCameraSettings (some (fun _ _ => 0)) (initialSettings 13)
          (mkCameraReq "brightness" 1)).2.1
        (mkCameraReq "brightness" 1) =
      handleCameraSettings (some (fun _ _ => 0)) (initialSettings 13)
        (mkCameraReq "brightness" 1) :=
  C9_update_idempotent (fun _ _ => 0) (initialSettings 13) "brightness"
    1 (by decide) (by decide)

/-- Claim C10: a request routed to the settings handler whose header
contains `GET /camera` but neither `GET /camera/status` nor
`GET /camera?` (e.g. a bare `GET /camera`) gets a 200 `text/plain`
response with body `"-1"`, with no state mutation and no Frame-Source
setter invocation (assuming the Frame-Source handle is available, as on
every non-500 path). -/
theorem C10_bare_camera_path (f : String → Int → Int)
    (st : CameraSettings) (header : String)
    (_hc : strHas header "GET /camera" = true)
    (hst : strHas header "GET /camera/status" = false)
    (hq : strHas header "GET /camera?" = false) :
    handleCameraSettings (some f) st header =
      ({ status := "200 OK", contentType := "text/plain",
         contentLength := some 2, body := "-1" }, st, []) := by
  simp [handleCameraSettings, hst, hq]
  exact ⟨by decide, by decide⟩

/-- Witness for C10: the bare `GET /camera` request. -/
theorem C10_bare_camera_path_witness :
    handleCameraSettings (some (fun _ _ => 0)) (initialSettings 13)
        "GET /camera HTTP/1.1" =
      ({ status := "200 OK", contentType := "text/plain",
         contentLength := some 2, body := "-1" },
       initialSettings 13, []) :=
  C10_bare_camera_path (fun _ _ => 0) (initialSettings 13)
    "GET /camera HTTP/1.1" (by decide) (by decide) (by decide)
